import Mathlib

/-!
Verification of the backport orchestration core of `issue-board-tracking`
(`src/backport/utils.ts` and the git runner module) against its
natural-language specification.  Strings are modelled as Lean `String`s
(lists of characters); asynchronous side effects (filesystem, git,
hosting API) are modelled as explicit event traces; the regular
expressions of `createBackportComment` are embedded as executable
character-list matchers mirroring JavaScript regex semantics for those
two concrete patterns.
-/

set_option maxHeartbeats 1000000
set_option maxRecDepth 8192

namespace Trop

/-! ## Character-list string helpers -/

/-- Exact prefix test on character lists (`pat` is a prefix of the second list). -/
def startsWithL : List Char → List Char → Bool
  | [], _ => true
  | _ :: _, [] => false
  | p :: ps, c :: cs => p == c && startsWithL ps cs

/-- Substring occurrence test on character lists. -/
def containsL (pat : List Char) : List Char → Bool
  | [] => pat.isEmpty
  | c :: cs => startsWithL pat (c :: cs) || containsL pat cs

/-- `pat` occurs as a substring of `hay`. -/
def strContains (hay pat : String) : Bool := containsL pat.data hay.data

theorem startsWithL_self_append (p r : List Char) : startsWithL p (p ++ r) = true := by
  induction p with
  | nil => rfl
  | cons c cs ih => simp [startsWithL, ih]

theorem startsWithL_refl (p : List Char) : startsWithL p p = true := by
  simpa using startsWithL_self_append p []

theorem containsL_of_startsWithL {p h : List Char} (hs : startsWithL p h = true) :
    containsL p h = true := by
  cases h with
  | nil =>
    cases p with
    | nil => rfl
    | cons q qs => simp [startsWithL] at hs
  | cons c cs => simp [containsL, hs]

theorem containsL_append_left (p l : List Char) {r : List Char}
    (hr : containsL p r = true) : containsL p (l ++ r) = true := by
  induction l with
  | nil => simpa using hr
  | cons c cs ih => simp [containsL, ih]

theorem containsL_mid (p l r : List Char) : containsL p (l ++ (p ++ r)) = true :=
  containsL_append_left p l (containsL_of_startsWithL (startsWithL_self_append p r))

theorem strContains_mid (a m b : String) : strContains (a ++ m ++ b) m = true := by
  unfold strContains
  have h : (a ++ m ++ b).data = a.data ++ (m.data ++ b.data) := by
    simp [String.data_append]
  rw [h]
  exact containsL_mid m.data a.data b.data

/-! ## Label handling (`utils.ts` lines 10-15, 234-273) -/

structure Label where
  name : String
deriving DecidableEq

/-- Per-repository configuration (`config.yml`); both fields optional. -/
structure TropConfig where
  targetLabelPrefix : Option String := none
  mergedLabelPrefix : Option String := none

structure Prefixes where
  target : String
  merged : String
deriving DecidableEq

/-- The tuple parameterizing one backport job. -/
structure BackportTarget where
  targetBranch : String
  labelToRemove : Option String
  labelToAdd : Option String
deriving DecidableEq

/-- JavaScript `String.prototype.replace` with a plain-string pattern:
replaces the first (leftmost) occurrence of `pat`, if any. -/
def replaceFirstL : List Char → List Char → List Char → List Char
  | [], pat, rep => if pat.isEmpty then rep else []
  | c :: cs, pat, rep =>
    if startsWithL pat (c :: cs) then rep ++ (c :: cs).drop pat.length
    else c :: replaceFirstL cs pat rep

def strReplaceFirst (s pat rep : String) : String :=
  String.mk (replaceFirstL s.data pat.data rep.data)

def TARGET_LABEL_PREFIX : String := "target/"
def MERGED_LABEL_PREFIX : String := "merged/"

/-- `utils.ts` lines 13-15: `label.name.replace(prefix, '')`. -/
def labelToTargetBranch (label : Label) (pre : String) : String :=
  strReplaceFirst label.name pre ""

/-- JavaScript `a || d` where `a` is an optional string (empty string is falsy). -/
def jsOrDefault : Option String → String → String
  | some s, d => if s = "" then d else s
  | none, d => d

/-- `utils.ts` lines 234-239. -/
def getLabelPrefixes (config : TropConfig) : Prefixes :=
  { target := jsOrDefault config.targetLabelPrefix TARGET_LABEL_PREFIX,
    merged := jsOrDefault config.mergedLabelPrefix MERGED_LABEL_PREFIX }

def strStartsWith (s pat : String) : Bool := startsWithL pat.data s.data

/-- `utils.ts` lines 241-261: the label entry point, reduced to the
`BackportTarget` it hands to `backportImpl` (`none` when it no-ops). -/
def backportToLabel (config : TropConfig) (label : Label) : Option BackportTarget :=
  let prefixes := getLabelPrefixes config
  if strStartsWith label.name prefixes.target then
    let targetBranch := labelToTargetBranch label prefixes.target
    if targetBranch = "" then none
    else some { targetBranch := targetBranch,
                labelToRemove := some label.name,
                labelToAdd := some (strReplaceFirst label.name prefixes.target prefixes.merged) }
  else none

/-- `utils.ts` lines 263-273: the manual command entry point, reduced to the
`BackportTarget` it hands to `backportImpl`. -/
def backportToBranch (config : TropConfig) (targetBranch : String) : BackportTarget :=
  { targetBranch := targetBranch,
    labelToRemove := none,
    labelToAdd := some ((getLabelPrefixes config).merged ++ targetBranch) }

theorem replaceFirstL_of_startsWith (s pat rep : List Char)
    (h : startsWithL pat s = true) :
    replaceFirstL s pat rep = rep ++ s.drop pat.length := by
  cases s with
  | nil =>
    cases pat with
    | nil => simp [replaceFirstL]
    | cons p ps => simp [startsWithL] at h
  | cons c cs => simp [replaceFirstL, h]

/-! ## `createBackportComment` (`utils.ts` lines 26-49)

The two regular expressions are embedded as executable matchers over
character lists, mirroring JavaScript regex semantics for these concrete
patterns (leftmost match, ordered alternation with backtracking, the `i`
flag, `.` excluding line terminators, and the `g` flag as a
non-overlapping leftmost scan). -/

structure Repo where
  owner : String
  name : String
  html_url : String
deriving DecidableEq

structure PRBase where
  repo : Repo
  sha : String
deriving DecidableEq

structure PullRequest where
  number : Nat
  title : String
  body : String
  base : PRBase
deriving DecidableEq

/-- Case-insensitive character match, with `.` in the pattern standing for
the regex wildcard (any character but a line terminator): the source splices
`pr.base.repo.html_url` into the pattern verbatim, so its dots are regex
metacharacters. -/
def dotCi (p c : Char) : Bool :=
  if p = '.' then !(c = '\n' || c = '\r') else p.toLower == c.toLower

/-- Case-insensitive (dot-wildcard) pattern-prefix test. -/
def ciDotPre : List Char → List Char → Bool
  | [], _ => true
  | _ :: _, [] => false
  | p :: ps, c :: cs => dotCi p c && ciDotPre ps cs

/-- Number of leading decimal digits. -/
def countDigits : List Char → Nat
  | [] => 0
  | c :: cs => if c.isDigit then countDigits cs + 1 else 0

/-- The ordered alternation of the issue-closing regex
`(close|closes|closed|fix|fixes|fixed|resolve|resolves|resolved)`. -/
def issueKeywords : List (List Char) :=
  ["close".data, "closes".data, "closed".data, "fix".data, "fixes".data,
   "fixed".data, "resolve".data, "resolves".data, "resolved".data]

/-- Try one alternation branch at the current position: keyword, a space,
the repository URL pattern, `/issues/`, one or more digits (greedy).
Returns the consumed length on success. -/
def tryKeyword (urlPat s kw : List Char) : Option Nat :=
  if ciDotPre kw s then
    match s.drop kw.length with
    | ' ' :: s2 =>
      if ciDotPre urlPat s2 then
        let s3 := s2.drop urlPat.length
        if ciDotPre "/issues/".data s3 then
          let d := countDigits (s3.drop 8)
          if 0 < d then some (kw.length + 1 + urlPat.length + 8 + d) else none
        else none
      else none
    | _ => none
  else none

def firstSome : List (Option Nat) → Option Nat
  | [] => none
  | some n :: _ => some n
  | none :: rest => firstSome rest

/-- Match the issue-closing regex at the start of `s`. -/
def issueAt (urlPat s : List Char) : Option Nat :=
  firstSome (issueKeywords.map (tryKeyword urlPat s))

/-- Leftmost match of the issue-closing regex (non-global `String.match`):
returns the matched text `issueMatch[0]`. -/
def issueScan (urlPat : List Char) : List Char → Option (List Char)
  | [] => none
  | c :: cs =>
    match issueAt urlPat (c :: cs) with
    | some n => some ((c :: cs).take n)
    | none => issueScan urlPat cs

def issueMatchFn (body url : String) : Option String :=
  (issueScan url.data body.data).map String.mk

/-- Scan the `(.+?)(?:(?:\r?\n)|$)` tail of the notes regex: at least one
non-line-terminator character already consumed (`n ≥ 1`), extend lazily up to
the first line terminator or the end of the string.  Returns
`(content length, terminator length)`. -/
def contentGo : Nat → List Char → Option (Nat × Nat)
  | n, [] => some (n, 0)
  | n, '\r' :: '\n' :: _ => some (n, 2)
  | _, '\r' :: _ => none
  | n, '\n' :: _ => some (n, 1)
  | n, _ :: cs => contentGo (n + 1) cs

/-- Match `(.+?)(?:(?:\r?\n)|$)` at the start of `s` (content nonempty). -/
def notesContent : List Char → Option (Nat × Nat)
  | [] => none
  | c :: cs => if c = '\n' || c = '\r' then none else contentGo 1 cs

/-- Match the notes regex `(?:(?:\r?\n)|^)notes: (.+?)(?:(?:\r?\n)|$)` (flag
`i`) at the current position; `atStart` is true only at index 0 (where `^` can
match without the `m` flag).  Returns the consumed length. -/
def notesAt (atStart : Bool) (s : List Char) : Option Nat :=
  let lead : Option Nat :=
    match s with
    | '\r' :: '\n' :: _ => some 2
    | '\n' :: _ => some 1
    | _ => if atStart then some 0 else none
  match lead with
  | none => none
  | some k =>
    let s1 := s.drop k
    if ciDotPre "notes: ".data s1 then
      (notesContent (s1.drop 7)).map (fun p => k + 7 + p.1 + p.2)
    else none

/-- The `g`-flag scan: collect successive non-overlapping leftmost matches.
Fuel-driven (`fuel = length + 1` suffices: every step advances by at least one
character). -/
def notesScanGo : Nat → Bool → List Char → List (List Char)
  | 0, _, _ => []
  | fuel + 1, atStart, s =>
    match notesAt atStart s with
    | some n => s.take n :: notesScanGo fuel false (s.drop n)
    | none =>
      match s with
      | [] => []
      | _ :: t => notesScanGo fuel false t

/-- `pr.body.match(notesInfo)` with the global notes regex: the list of all
matched substrings (`null` becomes `[]`). -/
def notesMatches (s : String) : List String :=
  (notesScanGo (s.data.length + 1) true s.data).map String.mk

/-- `utils.ts` lines 26-49.  The issue match is non-global with two capture
groups, so on success the JavaScript match array has length 3 and the
`length > 1` test is equivalent to the match existing; the notes match is
global, so its array holds one element per match and `length > 1` requires at
least two matched notes lines.  `${notesMatch}` stringifies the array joined
with commas. -/
def createBackportComment (pr : PullRequest) : String :=
  let base := "Backport of #" ++ toString pr.number ++ "\n\nSee that PR for details."
  let withIssue :=
    match issueMatchFn pr.body pr.base.repo.html_url with
    | some m => base ++ "\n\n " ++ m
    | none => base
  let notes := notesMatches pr.body
  if notes.length > 1 then withIssue ++ "\n\n " ++ String.intercalate "," notes
  else withIssue ++ "\n\nNotes: no-notes"

/-- The PR of the spec's worked example: one `Fixes` reference and exactly one
`Notes:` line. -/
def prNotesExample : PullRequest :=
  { number := 1234,
    title := "fix stuff",
    body := "Fixes https://github.com/o/r/issues/42\nNotes: improved X",
    base := { repo := { owner := "o", name := "r",
                        html_url := "https://github.com/o/r" },
              sha := "0000" } }

/-- Claim C1 (code bug): the code's own notes regex matches the single
`Notes: improved X` line of `prNotesExample.body`, yet because the global
match array has length 1 (not `> 1`) the generated body falls back to the
literal `Notes: no-notes` and does not carry the notes line forward. -/
theorem c1_notes_dropped :
    notesMatches prNotesExample.body = ["\nNotes: improved X"] ∧
    strContains (createBackportComment prNotesExample) "Notes: no-notes" = true ∧
    strContains (createBackportComment prNotesExample) "improved X" = false := by
  refine ⟨by decide, by decide, by decide⟩

/-- Claim C7: whenever the issue-closing regex matches the original PR body
(against the originating repository's issue URL pattern), the matched
reference is carried forward into the generated backport PR body. -/
theorem c7_issue_carried (pr : PullRequest) (m : String)
    (h : issueMatchFn pr.body pr.base.repo.html_url = some m) :
    strContains (createBackportComment pr) m = true := by
  unfold createBackportComment
  rw [h]
  by_cases hn : (notesMatches pr.body).length > 1 <;>
    simp only [hn, if_true, if_false] <;>
    unfold strContains <;>
    simp only [String.data_append, List.append_assoc] <;>
    repeat' first
      | exact containsL_of_startsWithL (startsWithL_self_append _ _)
      | apply containsL_append_left

/-- Witness for C7 at a concrete PR whose body closes an issue. -/
theorem c7_issue_carried_witness :
    strContains (createBackportComment prNotesExample)
      "Fixes https://github.com/o/r/issues/42" = true :=
  c7_issue_carried prNotesExample "Fixes https://github.com/o/r/issues/42" (by decide)

/-- Claim C6: with default prefixes, the label `target/release-5.0` resolves to
target branch `release-5.0` and the label scheduled for addition is
`merged/release-5.0`; in general a label name starting with the target prefix
resolves to the name with that prefix removed. -/
theorem c6_label_resolution :
    (∀ (name pat : String), startsWithL pat.data name.data = true →
        labelToTargetBranch { name := name } pat = String.mk (name.data.drop pat.data.length)) ∧
    labelToTargetBranch { name := "target/release-5.0" } "target/" = "release-5.0" ∧
    backportToLabel {} { name := "target/release-5.0" } =
      some { targetBranch := "release-5.0",
             labelToRemove := some "target/release-5.0",
             labelToAdd := some "merged/release-5.0" } := by
  refine ⟨?_, by decide, by decide⟩
  intro name pat h
  unfold labelToTargetBranch strReplaceFirst
  rw [replaceFirstL_of_startsWith _ _ _ h]
  have hz : ("" : String).data = [] := rfl
  rw [hz]
  simp

/-- Witness for C6: the general prefix-strip fact applied at a concrete label. -/
theorem c6_label_resolution_witness :
    labelToTargetBranch { name := "target/x" } "target/" =
      String.mk ("target/x".data.drop "target/".data.length) :=
  c6_label_resolution.1 "target/x" "target/" (by decide)

/-- Claim C10: the manual `backport to branch` entry point always passes
`labelToRemove = none` and `labelToAdd = merged prefix ++ target branch`,
although both labels are optional in the job parameters. -/
theorem c10_backport_to_branch (config : TropConfig) (targetBranch : String) :
    (backportToBranch config targetBranch).labelToRemove = none ∧
    (backportToBranch config targetBranch).labelToAdd =
      some ((getLabelPrefixes config).merged ++ targetBranch) :=
  ⟨rfl, rfl⟩

/-! ## The job queue

Modelled from the spec: the `Queue` module (`src/Queue.ts`) is imported by
`utils.ts` (`queue.enterQueue(action, onFailure)`) but its source is not part
of the provided files.  Per spec §4.1, the queue is a FIFO run list executing
one job's action at a time; if an action fails the queue invokes the job's
failure handler and then proceeds to the next job; jobs are never retried. -/

/-- An enqueued job: an identifier and whether its action succeeds. -/
structure QJob where
  id : Nat
  ok : Bool
deriving DecidableEq

/-- Observable queue events: a job's action beginning, a job's action ending
successfully, a job's failure handler being invoked. -/
inductive QEv where
  | jobBegin (id : Nat)
  | jobEndOk (id : Nat)
  | jobFailH (id : Nat)
deriving DecidableEq

/-- Modelled from the spec: the serialized FIFO execution of the queue,
as the trace of events it produces. -/
def runQueue : List QJob → List QEv
  | [] => []
  | j :: rest =>
    QEv.jobBegin j.id :: (if j.ok then QEv.jobEndOk j.id else QEv.jobFailH j.id) :: runQueue rest

/-- A trace is well-serialized when, threaded through a "currently running
job" register, every begun job reaches its own terminal event before any
other job begins: global mutual exclusion plus run-to-completion. -/
def wellSerialized : Option Nat → List QEv → Bool
  | none, [] => true
  | none, QEv.jobBegin i :: t => wellSerialized (some i) t
  | none, QEv.jobEndOk _ :: _ => false
  | none, QEv.jobFailH _ :: _ => false
  | some _, [] => false
  | some i, QEv.jobEndOk j :: t => i == j && wellSerialized none t
  | some i, QEv.jobFailH j :: t => i == j && wellSerialized none t
  | some _, QEv.jobBegin _ :: _ => false

/-- The job ids whose actions begin, in trace order. -/
def beginsOf (evs : List QEv) : List Nat :=
  evs.filterMap fun e => match e with | QEv.jobBegin i => some i | _ => none

/-- The job ids whose failure handlers are invoked, in trace order. -/
def failsOf (evs : List QEv) : List Nat :=
  evs.filterMap fun e => match e with | QEv.jobFailH i => some i | _ => none

/-- Claim C5: the queue trace is well-serialized (each job's action reaches a
terminal state — success, or failure-handler invocation — before the next
action begins, and at most one action runs at any instant), actions begin in
enqueue order with every enqueued job eventually begun, and the failure
handlers invoked are exactly those of the failing jobs, once each, in order —
so a failure does not stop subsequently enqueued jobs. -/
theorem c5_queue_serialization (jobs : List QJob) :
    wellSerialized none (runQueue jobs) = true ∧
    beginsOf (runQueue jobs) = jobs.map QJob.id ∧
    failsOf (runQueue jobs) = ((jobs.filter fun j => !j.ok).map QJob.id) := by
  induction jobs with
  | nil => exact ⟨rfl, rfl, rfl⟩
  | cons j rest ih =>
    refine ⟨?_, ?_, ?_⟩
    · cases hok : j.ok <;>
        simp [runQueue, wellSerialized, hok, ih.1]
    · cases hok : j.ok <;>
        simp [runQueue, beginsOf, hok, ← ih.2.1, beginsOf]
    · cases hok : j.ok <;>
        simp [runQueue, failsOf, hok, ← ih.2.2, failsOf, List.filter]

/-! ## The failure handler (`utils.ts` lines 222-230) -/

/-- Hosting-API side effects of the orchestrator, as trace events. -/
inductive Ev where
  | sleep5
  | initRepo (owner repo : String)
  | forkReq (owner repo : String)
  | probeFork (attempt : Nat)
  | setUpRemotes (slug : String) (remotes : List (String × String))
  | getPrCommits
  | fetchPatch (url : String)
  | runBackport (slug targetBranch tempBranch targetRemote tempRemote : String)
      (patches : List String)
  | createPR (head base title body : String)
  | comment (prNumber : Nat) (body : String)
  | removeLabel (prNumber : Nat) (name : String)
  | addLabels (prNumber : Nat) (labels : List String)
deriving DecidableEq

/-- The body of the comment the failure closure posts
(a template literal containing a real newline and two-space indent). -/
def backportErrorBody (targetBranch : String) : String :=
  "An error occurred while attempting to backport this PR to \"" ++ targetBranch ++
    "\",\n  you will need to perform this backport manually"

/-- `utils.ts` lines 222-230: the failure closure handed to the queue posts a
single comment on the original PR. -/
def backportErrorHandler (prNumber : Nat) (targetBranch : String) : List Ev :=
  [Ev.comment prNumber (backportErrorBody targetBranch)]

/-- Count, in a queue trace, of failure-handler invocations for job `i`. -/
def failCount (i : Nat) (evs : List QEv) : Nat :=
  evs.countP fun e => e == QEv.jobFailH i

/-- Count, in a queue trace, of action beginnings for job `i`. -/
def beginCount (i : Nat) (evs : List QEv) : Nat :=
  evs.countP fun e => e == QEv.jobBegin i

/-- Claim C8: the failure handler posts exactly one comment on the original
PR; that comment names the target branch and states that the backport must be
performed manually; and in the queue each job's failure handler runs exactly
once per failing enqueued job and a job's action is never re-run (no retry,
no re-queue). -/
theorem c8_failure_handler :
    (∀ (prNumber : Nat) (targetBranch : String),
        backportErrorHandler prNumber targetBranch =
          [Ev.comment prNumber (backportErrorBody targetBranch)] ∧
        strContains (backportErrorBody targetBranch) targetBranch = true ∧
        strContains (backportErrorBody targetBranch)
          "you will need to perform this backport manually" = true) ∧
    (∀ (jobs : List QJob) (i : Nat),
        failCount i (runQueue jobs) = (jobs.filter fun j => j.id == i && !j.ok).length ∧
        beginCount i (runQueue jobs) = (jobs.filter fun j => j.id == i).length) := by
  constructor
  · intro prNumber targetBranch
    refine ⟨rfl, ?_, ?_⟩
    · unfold backportErrorBody strContains
      simp only [String.data_append, List.append_assoc]
      repeat' first
        | exact containsL_of_startsWithL (startsWithL_self_append _ _)
        | apply containsL_append_left
    · unfold backportErrorBody strContains
      simp only [String.data_append, List.append_assoc]
      apply containsL_append_left
      apply containsL_append_left
      decide
  · intro jobs i
    induction jobs with
    | nil => exact ⟨rfl, rfl⟩
    | cons j rest ih =>
      constructor
      · cases hok : j.ok <;> by_cases hid : j.id = i <;>
          simp [runQueue, failCount, List.countP_cons, hok, hid, ← ih.1, failCount,
            List.filter_cons, QEv.jobFailH.injEq]
      · cases hok : j.ok <;> by_cases hid : j.id = i <;>
          simp [runQueue, beginCount, List.countP_cons, hok, hid, ← ih.2, beginCount,
            List.filter_cons, QEv.jobBegin.injEq]

/-! ## The git runner module (`initRepo`, `backportCommitsToBranch`) -/

/-- Filesystem and git side effects of the runner module, as trace events.
Git operations carry the workspace directory they are scoped to. -/
inductive GEv where
  | mkdirp (path : String)
  | mkdtemp (pre : String)
  | removePath (path : String)
  | clone (dir url : String)
  | resetHard (dir : String)
  | statusQuery (dir : String)
  | checkout (dir ref : String)
  | pullHead (dir : String)
  | pullFrom (dir remote branch : String)
  | checkoutBranch (dir branch startPoint : String)
  | addConfig (dir key value : String)
  | writeFile (path content : String)
  | amThreeWay (dir patchPath : String)
  | push (dir remote branch : String) (setUpstream : Bool)
deriving DecidableEq

structure InitRepoOptions where
  owner : String
  repo : String
deriving DecidableEq

/-- Environment for `initRepo`: the OS temp directory, the unique suffix
`fs.mkdtemp` picks, the untracked files `git status` reports after the clone,
and the repository's actual default branch (which the code never consults). -/
structure InitEnv where
  tmpdir : String
  tmpName : String
  notAdded : List String
  defaultBranch : String

def TROP_NAME : String := "Electron Bot"
def TROP_EMAIL : String := "electron@github.com"

def baseDir (env : InitEnv) : String := env.tmpdir ++ "/trop-working"

/-- The workspace directory `initRepo` ends up with. -/
def initDir (env : InitEnv) (o : InitRepoOptions) : String :=
  baseDir env ++ "/" ++ o.owner ++ "/" ++ o.repo ++ "/tmp-" ++ env.tmpName

/-- Runner module lines 46-74: make the base slug directory, `mkdtemp` a fresh
uniquely-named workspace (double-cleared), clone the repository into it, reset
hard, remove every untracked file `git status` reports, check out `master`,
pull, and set the bot identity and disabled commit signing in that workspace's
local git configuration.  Returns the event trace and the workspace dir. -/
def initRepo (env : InitEnv) (o : InitRepoOptions) : List GEv × String :=
  let slug := o.owner ++ "/" ++ o.repo
  let dir := initDir env o
  ([GEv.mkdirp (baseDir env ++ "/" ++ slug),
    GEv.mkdtemp (baseDir env ++ "/" ++ slug ++ "/tmp-"),
    GEv.mkdirp dir,
    GEv.removePath dir,
    GEv.mkdirp dir,
    GEv.clone dir ("https://github.com/" ++ slug ++ ".git"),
    GEv.resetHard dir,
    GEv.statusQuery dir] ++
   (env.notAdded.map fun f => GEv.removePath (dir ++ "/" ++ f)) ++
   [GEv.checkout dir "master",
    GEv.pullHead dir,
    GEv.addConfig dir "user.email" TROP_EMAIL,
    GEv.addConfig dir "user.name" TROP_NAME,
    GEv.addConfig dir "commit.gpgsign" "false"],
   dir)

/-- A concrete environment whose repository default branch is `main`. -/
def envMainDefault : InitEnv :=
  { tmpdir := "/tmp", tmpName := "abc123", notAdded := [], defaultBranch := "main" }

def isCheckoutOfMaster : GEv → Bool
  | GEv.checkout _ b => b == "master"
  | _ => true

/-- Counterexample to claim C9 as stated: for a repository whose default
branch is `main`, workspace preparation still checks out only the fixed
branch name `master` — it never checks out the repository's default branch. -/
theorem c9_counterexample :
    envMainDefault.defaultBranch = "main" ∧
    ((initRepo envMainDefault { owner := "o", repo := "r" }).1.all isCheckoutOfMaster = true) ∧
    GEv.checkout "/tmp/trop-working/o/r/tmp-abc123" "master" ∈
      (initRepo envMainDefault { owner := "o", repo := "r" }).1 := by
  refine ⟨rfl, by decide, by decide⟩

def isCloneEv : GEv → Bool
  | GEv.clone _ _ => true
  | _ => false

def isRemoveEv : GEv → Bool
  | GEv.removePath _ => true
  | _ => false

def isCheckoutEv : GEv → Bool
  | GEv.checkout _ _ => true
  | _ => false

def isAddConfigEv : GEv → Bool
  | GEv.addConfig _ _ _ => true
  | _ => false

def isMkdtempEv : GEv → Bool
  | GEv.mkdtemp _ => true
  | _ => false

/-- Claim C9 as amended: workspace preparation creates one fresh
uniquely-named directory under the slug's base path, performs exactly one
clone — of the repository's URL, into that directory —, removes (besides the
defensive directory clear) exactly the untracked files reported by `git
status`, performs exactly one checkout, of the fixed branch name `master`
(not of the repository's default branch, whatever that is), pulls, and sets
exactly the bot identity (`user.name`, `user.email`) and disabled commit
signing as configuration carrying that workspace directory only. -/
theorem c9_initRepo_amended (env : InitEnv) (o : InitRepoOptions) :
    (initRepo env o).2 = initDir env o ∧
    (initRepo env o).1.filter isMkdtempEv =
      [GEv.mkdtemp (baseDir env ++ "/" ++ o.owner ++ "/" ++ o.repo ++ "/tmp-")] ∧
    (initRepo env o).1.filter isCloneEv =
      [GEv.clone (initDir env o)
        ("https://github.com/" ++ o.owner ++ "/" ++ o.repo ++ ".git")] ∧
    (initRepo env o).1.filter isRemoveEv =
      GEv.removePath (initDir env o) ::
        (env.notAdded.map fun f => GEv.removePath (initDir env o ++ "/" ++ f)) ∧
    (initRepo env o).1.filter isCheckoutEv = [GEv.checkout (initDir env o) "master"] ∧
    GEv.pullHead (initDir env o) ∈ (initRepo env o).1 ∧
    (initRepo env o).1.filter isAddConfigEv =
      [GEv.addConfig (initDir env o) "user.email" TROP_EMAIL,
       GEv.addConfig (initDir env o) "user.name" TROP_NAME,
       GEv.addConfig (initDir env o) "commit.gpgsign" "false"] := by
  refine ⟨rfl, ?_, ?_, ?_, ?_, ?_, ?_⟩ <;>
    simp [initRepo, List.filter_append, List.filter_map, Function.comp_def,
      isMkdtempEv, isCloneEv, isRemoveEv, isCheckoutEv, isAddConfigEv, List.filter_cons,
      String.append_assoc, List.filter_true]

/-! ## `backportCommitsToBranch` (runner module lines 91-111) -/

structure BackportOptions where
  dir : String
  slug : String
  targetRemote : String
  targetBranch : String
  tempRemote : String
  tempBranch : String
  patches : List String

/-- Sequential patch application (runner module lines 99-104): for each patch
in order, write it to the scratch file, run `git am -3` on it (three-way
merge), and remove the scratch file; the first patch whose apply fails rejects
the whole function right there (the scratch file is not removed and no later
patch is attempted).  `amOk` says which patch texts apply cleanly.  Returns
the event trace and whether all patches applied. -/
def applyPatches (amOk : String → Bool) (dir : String) : List String → List GEv × Bool
  | [] => ([], true)
  | p :: rest =>
    if amOk p then
      let r := applyPatches amOk dir rest
      (GEv.writeFile (dir ++ ".patch") p ::
        GEv.amThreeWay dir (dir ++ ".patch") ::
        GEv.removePath (dir ++ ".patch") :: r.1, r.2)
    else
      ([GEv.writeFile (dir ++ ".patch") p, GEv.amThreeWay dir (dir ++ ".patch")], false)

/-- Runner module lines 91-111: check out `target_repo/<targetBranch>`
(the remote name is hardcoded in the source), pull it, branch `tempBranch`
off it, apply all patches in order, and — only if every patch applied — push
the temp branch to the temp remote with upstream tracking. -/
def backportCommitsToBranch (amOk : String → Bool) (o : BackportOptions) :
    List GEv × Bool :=
  let pre := [GEv.checkout o.dir ("target_repo/" ++ o.targetBranch),
              GEv.pullFrom o.dir "target_repo" o.targetBranch,
              GEv.checkoutBranch o.dir o.tempBranch ("target_repo/" ++ o.targetBranch)]
  let r := applyPatches amOk o.dir o.patches
  if r.2 then (pre ++ r.1 ++ [GEv.push o.dir o.tempRemote o.tempBranch true], true)
  else (pre ++ r.1, false)

/-- The prefix of patches the loop attempts: every patch up to and including
the first failing one, or all of them when none fails. -/
def triedPatches (amOk : String → Bool) : List String → List String
  | [] => []
  | p :: rest => if amOk p then p :: triedPatches amOk rest else [p]

/-- Patch texts written to the scratch file, in order. -/
def writesOf : List GEv → List String
  | [] => []
  | GEv.writeFile _ c :: t => c :: writesOf t
  | _ :: t => writesOf t

theorem writesOf_append (a b : List GEv) :
    writesOf (a ++ b) = writesOf a ++ writesOf b := by
  induction a with
  | nil => simp [writesOf]
  | cons e t ih => cases e <;> simp [writesOf, ih]

def isAmEv : GEv → Bool
  | GEv.amThreeWay _ _ => true
  | _ => false

def isPushEv : GEv → Bool
  | GEv.push _ _ _ _ => true
  | _ => false

theorem getLast?_cons_append_singleton {α : Type} (c a : α) (l : List α) :
    (c :: (l ++ [a])).getLast? = some a := by
  rw [← List.cons_append]
  exact List.getLast?_concat _

theorem applyPatches_spec (amOk : String → Bool) (dir : String) (ps : List String) :
    (applyPatches amOk dir ps).2 = ps.all amOk ∧
    writesOf (applyPatches amOk dir ps).1 = triedPatches amOk ps ∧
    (applyPatches amOk dir ps).1.countP isAmEv = (triedPatches amOk ps).length ∧
    (applyPatches amOk dir ps).1.countP isPushEv = 0 := by
  induction ps with
  | nil => exact ⟨rfl, rfl, rfl, rfl⟩
  | cons p rest ih =>
    obtain ⟨ih1, ih2, ih3, ih4⟩ := ih
    cases hp : amOk p <;>
      refine ⟨?_, ?_, ?_, ?_⟩ <;>
      simp [applyPatches, triedPatches, writesOf, hp, List.all_cons,
        List.countP_cons, isAmEv, isPushEv, ih1, ih2, ih3, ih4]

/-- Claim C4: the replicator applies the patches strictly in the given order,
each through the three-way-merge-capable `git am -3` (the attempted patches
are exactly the prefix up to and including the first failure); the run
succeeds exactly when every patch applies; a failed patch means no push event
at all; and on success the push of the temp branch to the temp remote with
upstream tracking is the final operation. -/
theorem c4_patch_replication (amOk : String → Bool) (o : BackportOptions) :
    (backportCommitsToBranch amOk o).2 = o.patches.all amOk ∧
    writesOf (backportCommitsToBranch amOk o).1 = triedPatches amOk o.patches ∧
    (backportCommitsToBranch amOk o).1.countP isAmEv =
      (triedPatches amOk o.patches).length ∧
    (backportCommitsToBranch amOk o).1.countP isPushEv =
      (if o.patches.all amOk then 1 else 0) ∧
    (o.patches.all amOk = true →
      (backportCommitsToBranch amOk o).1.getLast? =
        some (GEv.push o.dir o.tempRemote o.tempBranch true)) := by
  obtain ⟨h1, h2, h3, h4⟩ := applyPatches_spec amOk o.dir o.patches
  cases hall : o.patches.all amOk <;>
    refine ⟨?_, ?_, ?_, ?_, ?_⟩ <;>
    simp [backportCommitsToBranch, h1, hall, writesOf_append, writesOf,
      List.countP_append, List.countP_cons, h2, h3, h4, isAmEv, isPushEv,
      List.getLast?_concat, getLast?_cons_append_singleton]

/-- Witness for C4 at a concrete options record with two applying patches. -/
theorem c4_patch_replication_witness :
    (backportCommitsToBranch (fun _ => true)
        { dir := "/w", slug := "o/r", targetRemote := "target_repo",
          targetBranch := "release-5.0", tempRemote := "fork",
          tempBranch := "tb", patches := ["p1", "p2"] }).1.getLast? =
      some (GEv.push "/w" "fork" "tb" true) :=
  (c4_patch_replication (fun _ => true)
      { dir := "/w", slug := "o/r", targetRemote := "target_repo",
        targetBranch := "release-5.0", tempRemote := "fork",
        tempBranch := "tb", patches := ["p1", "p2"] }).2.2.2.2 (by decide)

/-! ## The orchestrator action (`utils.ts` lines 63-221) -/

/-- Environment of one orchestrator run: the hosting API's answers and local
clock.  `forkProbe k` is the result of `getCommits` on the fork at the k-th
probe (`none` = the call throws, `some n` = it returns `n` commits);
`prCommits` is the PR's commit sha list; `patchFor` the patch text fetched per
commit; `backportOk` whether the BACKPORT git run succeeds. -/
structure OrchEnv where
  forkProbe : Nat → Option Nat
  forkOwner : String
  forkName : String
  token : String
  prCommits : List String
  patchFor : String → String
  backportOk : Bool
  nowMs : Nat
  newPrNumber : Nat

/-- Outcome of the queued action: normal completion, a silent early `return`,
or a thrown error (which the queue routes to the failure handler). -/
inductive Res where
  | done
  | stopped
  | failed (msg : String)
deriving DecidableEq

/-- `utils.ts` lines 87-102, the fork-readiness loop
`while (!forkReady && attempt < 20)`: probe the fork's commit list (a throw
leaves `forkReady` unchanged), increment `attempt`, sleep 5s if still not
ready.  Fuel-driven with fuel 21 ≥ any possible iteration count, so the
fuel never runs out and the function equals the source's `while` loop.
Returns (events, final `attempt`, final `forkReady`). -/
def pollGo (probe : Nat → Option Nat) : Nat → Nat → Bool → List Ev × Nat × Bool
  | 0, attempt, ready => ([], attempt, ready)
  | fuel + 1, attempt, ready =>
    if !ready && attempt < 20 then
      let r := match probe attempt with
               | some n => decide (0 < n)
               | none => ready
      let here := Ev.probeFork attempt :: (if !r then [Ev.sleep5] else [])
      let rest := pollGo probe fuel (attempt + 1) r
      (here ++ rest.1, rest.2)
    else ([], attempt, ready)

/-- The two remotes bound in `utils.ts` lines 111-124. -/
def remotesFor (slug : String) (env : OrchEnv) : List (String × String) :=
  [("target_repo", "https://github.com/" ++ slug ++ ".git"),
   ("fork", "https://" ++ env.forkOwner ++ ":" ++ env.token ++ "@github.com/" ++
      env.forkOwner ++ "/" ++ env.forkName ++ ".git")]

/-- `pr.title.replace(/ /g, '-').replace(/\:/g, '-').toLowerCase()`. -/
def sanitizedTitle (t : String) : String :=
  String.mk (t.data.map fun c => if c = ' ' || c = ':' then '-' else c.toLower)

/-- The ≥240-commit warning comment (a single-quoted string with a
backslash-newline line continuation). -/
def tooManyBody : String :=
  "This PR has wayyyy too many commits to automatically backport,   please do this manually"

/-- `utils.ts` lines 63-221: the queued action of `backportImpl`, as the
event trace it produces and its outcome.  Sequence: 5s delay, INIT_REPO,
fork request, readiness poll (throwing `Not ready in time` when
`attempt >= 20` after the loop), SET_UP_REMOTES, commit enumeration, the
0-commit silent stop, the ≥240-commit warning-comment stop, per-commit patch
fetches, the BACKPORT git run, PR creation, breadcrumb comment, optional
label rewrite, and the `backport` label on the new PR. -/
def backportAction (env : OrchEnv) (pr : PullRequest) (targetBranch : String)
    (labelToRemove labelToAdd : Option String) : List Ev × Res :=
  let slug := pr.base.repo.owner ++ "/" ++ pr.base.repo.name
  let pre := [Ev.sleep5,
              Ev.initRepo pr.base.repo.owner pr.base.repo.name,
              Ev.forkReq pr.base.repo.owner pr.base.repo.name]
  let poll := pollGo env.forkProbe 21 0 false
  if 20 ≤ poll.2.1 then (pre ++ poll.1, Res.failed "Not ready in time")
  else
    let evs1 := pre ++ poll.1 ++ [Ev.setUpRemotes slug (remotesFor slug env), Ev.getPrCommits]
    if env.prCommits.length = 0 then (evs1, Res.stopped)
    else if 240 ≤ env.prCommits.length then
      (evs1 ++ [Ev.comment pr.number tooManyBody], Res.stopped)
    else
      let fetches := env.prCommits.map fun c =>
        Ev.fetchPatch ("https://github.com/" ++ slug ++ "/pull/" ++ toString pr.number ++
          "/commits/" ++ c ++ ".patch")
      let patches := env.prCommits.map env.patchFor
      let tempBranch := targetBranch ++ "-bp-" ++ sanitizedTitle pr.title ++ "-" ++
        toString env.nowMs
      let evs2 := evs1 ++ fetches ++
        [Ev.runBackport slug targetBranch tempBranch "target_repo" "fork" patches]
      if env.backportOk = false then (evs2, Res.failed "patch failed to apply")
      else
        let evs3 := evs2 ++
          [Ev.createPR (env.forkOwner ++ ":" ++ tempBranch) targetBranch
            (pr.title ++ " (backport: " ++ targetBranch ++ ")") (createBackportComment pr),
           Ev.comment pr.number
             ("We have automatically backported this PR to \"" ++ targetBranch ++
               "\",   please check out #" ++ toString env.newPrNumber)] ++
          (match labelToRemove with
           | some l => [Ev.removeLabel pr.number l]
           | none => []) ++
          (match labelToAdd with
           | some l => [Ev.addLabels pr.number [l]]
           | none => []) ++
          [Ev.addLabels env.newPrNumber ["backport"]]
        (evs3, Res.done)

/-- A probe trajectory on which the fork reports commits for the first time
on the 20th (final in-budget) attempt: attempts 0-18 see an empty commit
list, attempt 19 (the 20th) sees one commit. -/
def probeReadyAt20 : Nat → Option Nat := fun k => if k == 19 then some 1 else some 0

def prOrchExample : PullRequest :=
  { number := 7, title := "fix: colon title",
    body := "no notes",
    base := { repo := { owner := "o", name := "r",
                        html_url := "https://github.com/o/r" }, sha := "0" } }

def envReadyAt20 : OrchEnv :=
  { forkProbe := probeReadyAt20, forkOwner := "trop", forkName := "r",
    token := "tok", prCommits := ["c1"], patchFor := fun _ => "p",
    backportOk := true, nowMs := 0, newPrNumber := 8 }

/-- Claim C2 (code bug): when the fork first reports a non-empty commit list
on the 20th attempt, the loop exits with `forkReady = true` and
`attempt = 20` — and the subsequent `if (attempt >= 20)` check still throws
`Not ready in time`, although the poll did observe the fork ready within the
20-attempt budget. -/
theorem c2_poll_20th_attempt_fails :
    (pollGo probeReadyAt20 21 0 false).2 = (20, true) ∧
    (backportAction envReadyAt20 prOrchExample "release-5.0" none none).2 =
      Res.failed "Not ready in time" := by
  refine ⟨by decide, by decide⟩

def isCommentEv : Ev → Bool
  | Ev.comment _ _ => true
  | _ => false

def isFetchEv : Ev → Bool
  | Ev.fetchPatch _ => true
  | _ => false

def isRunBackportEv : Ev → Bool
  | Ev.runBackport _ _ _ _ _ _ => true
  | _ => false

/-- The poll loop emits only probe and sleep events. -/
theorem pollGo_countP_zero (p : Ev → Bool) (probe : Nat → Option Nat)
    (hprobe : ∀ k, p (Ev.probeFork k) = false) (hsleep : p Ev.sleep5 = false) :
    ∀ (fuel attempt : Nat) (ready : Bool),
      (pollGo probe fuel attempt ready).1.countP p = 0 := by
  intro fuel
  induction fuel with
  | zero => intro attempt ready; simp [pollGo]
  | succ f ih =>
    intro attempt ready
    by_cases hc : (!ready && attempt < 20) = true
    · cases hr : (match probe attempt with
                  | some n => decide (0 < n)
                  | none => ready) <;>
        simp [pollGo, hc, hr, List.countP_cons, List.countP_append, hprobe, hsleep, ih]
    · simp [pollGo, hc]

/-- An environment with a PR of zero commits (fork ready immediately). -/
def envZeroCommits : OrchEnv :=
  { forkProbe := fun _ => some 1, forkOwner := "trop", forkName := "r",
    token := "tok", prCommits := [], patchFor := fun _ => "p",
    backportOk := true, nowMs := 0, newPrNumber := 8 }

/-- An environment with a PR of 240 commits (fork ready immediately). -/
def envManyCommits : OrchEnv :=
  { forkProbe := fun _ => some 1, forkOwner := "trop", forkName := "r",
    token := "tok", prCommits := List.replicate 240 "sha", patchFor := fun _ => "p",
    backportOk := true, nowMs := 0, newPrNumber := 8 }

/-- Counterexample to claim C3 as stated: for a zero-commit PR the job still
performs workspace preparation (INIT_REPO) and the fork request — the
commit-count checks run only after workspace, fork, polling and remote setup,
not before. -/
theorem c3_counterexample :
    envZeroCommits.prCommits = [] ∧
    Ev.initRepo "o" "r" ∈ (backportAction envZeroCommits prOrchExample "b" none none).1 ∧
    Ev.forkReq "o" "r" ∈ (backportAction envZeroCommits prOrchExample "b" none none).1 := by
  refine ⟨rfl, by decide, by decide⟩

/-- Claim C3 as amended: provided the readiness poll succeeds (else the job
fails earlier), a job whose PR has zero commits stops silently after the
workspace/fork/remote preamble — no patch fetch, no BACKPORT run, and no
comment — and a job whose PR has 240 or more commits stops after posting
exactly one warning comment, likewise with no patch fetch and no BACKPORT
run; in both cases workspace preparation and the fork request have already
happened, i.e. the commit-count checks sit after workspace/fork/remote setup
and before any patch work. -/
theorem c3_commit_count_checks (env : OrchEnv) (pr : PullRequest)
    (targetBranch : String) (labelToRemove labelToAdd : Option String)
    (hready : (pollGo env.forkProbe 21 0 false).2.1 < 20) :
    (env.prCommits = [] →
      (backportAction env pr targetBranch labelToRemove labelToAdd).2 = Res.stopped ∧
      (backportAction env pr targetBranch labelToRemove labelToAdd).1.countP isCommentEv = 0 ∧
      (backportAction env pr targetBranch labelToRemove labelToAdd).1.countP isFetchEv = 0 ∧
      (backportAction env pr targetBranch labelToRemove labelToAdd).1.countP isRunBackportEv = 0 ∧
      Ev.initRepo pr.base.repo.owner pr.base.repo.name ∈
        (backportAction env pr targetBranch labelToRemove labelToAdd).1 ∧
      Ev.forkReq pr.base.repo.owner pr.base.repo.name ∈
        (backportAction env pr targetBranch labelToRemove labelToAdd).1) ∧
    (240 ≤ env.prCommits.length →
      (backportAction env pr targetBranch labelToRemove labelToAdd).2 = Res.stopped ∧
      (backportAction env pr targetBranch labelToRemove labelToAdd).1.countP isCommentEv = 1 ∧
      (backportAction env pr targetBranch labelToRemove labelToAdd).1.countP isFetchEv = 0 ∧
      (backportAction env pr targetBranch labelToRemove labelToAdd).1.countP isRunBackportEv = 0 ∧
      Ev.initRepo pr.base.repo.owner pr.base.repo.name ∈
        (backportAction env pr targetBranch labelToRemove labelToAdd).1) := by
  have hnotge : ¬ 20 ≤ (pollGo env.forkProbe 21 0 false).2.1 := by omega
  have hc : ∀ p, (∀ k, p (Ev.probeFork k) = false) → p Ev.sleep5 = false →
      (pollGo env.forkProbe 21 0 false).1.countP p = 0 := fun p h1 h2 =>
    pollGo_countP_zero p env.forkProbe h1 h2 21 0 false
  constructor
  · intro hzero
    have hlen : env.prCommits.length = 0 := by simp [hzero]
    refine ⟨?_, ?_, ?_, ?_, ?_, ?_⟩ <;>
      simp [backportAction, hnotge, hlen, List.countP_append, List.countP_cons,
        isCommentEv, isFetchEv, isRunBackportEv,
        hc isCommentEv (fun _ => rfl) rfl, hc isFetchEv (fun _ => rfl) rfl,
        hc isRunBackportEv (fun _ => rfl) rfl]
  · intro hmany
    have hlen : ¬ env.prCommits.length = 0 := by omega
    refine ⟨?_, ?_, ?_, ?_, ?_⟩ <;>
      simp [backportAction, hnotge, hlen, hmany, List.countP_append, List.countP_cons,
        isCommentEv, isFetchEv, isRunBackportEv,
        hc isCommentEv (fun _ => rfl) rfl, hc isFetchEv (fun _ => rfl) rfl,
        hc isRunBackportEv (fun _ => rfl) rfl]

/-- Witness for C3 as amended: the zero-commit and 240-commit environments. -/
theorem c3_commit_count_checks_witness :
    ((backportAction envZeroCommits prOrchExample "b" none none).2 = Res.stopped ∧
      (backportAction envZeroCommits prOrchExample "b" none none).1.countP isCommentEv = 0) ∧
    ((backportAction envManyCommits prOrchExample "b" none none).2 = Res.stopped ∧
      (backportAction envManyCommits prOrchExample "b" none none).1.countP isCommentEv = 1) := by
  constructor
  · have h := (c3_commit_count_checks envZeroCommits prOrchExample "b" none none
      (by decide)).1 rfl
    exact ⟨h.1, h.2.1⟩
  · have h := (c3_commit_count_checks envManyCommits prOrchExample "b" none none
      (by decide)).2 (by simp [envManyCommits, List.length_replicate])
    exact ⟨h.1, h.2.1⟩

end Trop
